import Mathlib

/-!
Verification of the gesturecraft-3d gesture pipeline.

The development shallowly embeds the core of the repository:

* the frame ingest adapter (`predictWebcam` in `GestureHandler.tsx`),
* the gesture-to-target mapping (the gesture `useMemo` of `ReactiveMesh`),
* the pinch manipulation tracker and the per-frame smoothing driver
  (the `useFrame` body of `ReactiveMesh`), and
* the overlay gesture history queue (the enqueue effect of `Overlay`).

Numeric values are modelled exactly: frame data and constants are rationals,
and the step of the animation driver is stated over an arbitrary field so that
it covers both an executable rational instance and the real instance with the
rotation sensitivity `π * 3`.
-/

namespace GestureCraft

/-- Closed gesture enumeration (`GestureType` in `types.ts`). -/
inductive Gesture where
  | None
  | Closed_Fist
  | Open_Palm
  | Pointing_Up
  | Pointing_Down
  | Victory
  | Thumb_Up
  | Thumb_Down
deriving DecidableEq

/-- Handedness labels; the code defaults to `Unknown` when none is present. -/
inductive Handedness where
  | Left
  | Right
  | Unknown
deriving DecidableEq

/-- A hand landmark point (`HandLandmark` in `types.ts`), coordinates in
normalized image space. -/
structure Landmark where
  x : ℚ
  y : ℚ
  z : ℚ
deriving DecidableEq

/-- Pinch state with coordinates in `K` (`PinchState` in `types.ts`). -/
structure Pinch (K : Type) where
  isPinching : Bool
  x : K
  y : K
deriving DecidableEq

/-- Top ranked classification entry (`{categoryName, score}` from the tracking
engine). The code casts the category name string to the gesture enumeration;
the model keeps it in the enumeration. -/
structure Category where
  categoryName : Gesture
  score : ℚ
deriving DecidableEq

/-- Raw per-frame result from the tracking engine; `Option` on each field
models `result.landmarks` / `result.gestures` / `result.handedness` being
absent or null. -/
structure RawResult where
  landmarks : Option (List (List Landmark))
  gestures : Option (List (List Category))
  handedness : Option (List (List Handedness))
deriving DecidableEq

/-- `DetectionResult` from `types.ts`, the frame consumed by the core. -/
structure DetectionResult where
  landmarks : List (List Landmark)
  gesture : Gesture
  confidence : ℚ
  handedness : Handedness
  pinchState : Pinch ℚ
deriving DecidableEq

/-- Squared distance between landmarks 4 (thumb tip) and 8 (index tip) of a
hand; out-of-range indices take the zero point. The code computes
`Math.sqrt(dx^2 + dy^2) < 0.08`; the model compares the square against
`0.08 ^ 2`, which is equivalent for the nonnegative distance (the bridge to
`Real.sqrt` is proved in `pinch_detection_threshold_iff`). -/
def pinchDistSq (hand : List Landmark) : ℚ :=
  (((hand.get? 4).getD ⟨0, 0, 0⟩).x - ((hand.get? 8).getD ⟨0, 0, 0⟩).x) ^ 2 +
    (((hand.get? 4).getD ⟨0, 0, 0⟩).y - ((hand.get? 8).getD ⟨0, 0, 0⟩).y) ^ 2

/-- Gesture, confidence and handedness extraction (`GestureHandler.tsx` lines
81-89). `none` models the caught `TypeError` thrown when the outer list is
nonempty but its first inner list is empty (`result.gestures[0][0]` is
`undefined`). -/
def gestureOf (raw : RawResult) : Option (Gesture × ℚ × Handedness) :=
  match raw.gestures with
  | some (gs :: _) =>
    match gs with
    | top :: _ =>
      match raw.handedness with
      | some (hs :: _) =>
        match hs with
        | h :: _ => some (top.categoryName, top.score, h)
        | [] => none
      | _ => some (top.categoryName, top.score, Handedness.Unknown)
    | [] => none
  | _ => some (Gesture.None, 0, Handedness.Unknown)

/-- Pinch computation (`GestureHandler.tsx` lines 92-111). `none` models the
caught exception when the first hand misses landmark 4 or 8. -/
def pinchOf (landmarks : List (List Landmark)) : Option (Pinch ℚ) :=
  match landmarks with
  | [] => some ⟨false, 0, 0⟩
  | hand :: _ =>
    match hand.get? 4, hand.get? 8 with
    | some thumbTip, some indexTip =>
      some
        (if (thumbTip.x - indexTip.x) ^ 2 + (thumbTip.y - indexTip.y) ^ 2 < (8 / 100) ^ 2 then
          ⟨true, (thumbTip.x + indexTip.x) / 2, (thumbTip.y + indexTip.y) / 2⟩
        else ⟨false, 0, 0⟩)
    | _, _ => none

/-- Frame ingest adapter: the body of `predictWebcam` (`GestureHandler.tsx`
lines 70-177) that builds the `DetectionResult`. A `none` result models the
thrown-and-caught per-frame exception: that frame is skipped and no result is
emitted, while the loop continues with the next frame. -/
def ingest (raw : RawResult) : Option DetectionResult :=
  match gestureOf raw with
  | none => none
  | some gi =>
    match pinchOf (raw.landmarks.getD []) with
    | none => none
    | some ps => some ⟨raw.landmarks.getD [], gi.1, gi.2.1, gi.2.2, ps⟩

example :
    ingest ⟨none, none, none⟩ =
      some ⟨[], Gesture.None, 0, Handedness.Unknown, ⟨false, 0, 0⟩⟩ := by decide

/-- A color as RGB channel components; `THREE.Color` stores channels in
`[0, 1]`, a hex constant contributing its byte values divided by 255 (the
renderer's optional color-space conversion is a per-channel monotone bijection
and is not modelled). -/
structure RGB (K : Type) where
  r : K
  g : K
  b : K
deriving DecidableEq

/-- Color built from the byte components of a hex literal. -/
def rgbOf {K : Type} [Field K] (r g b : ℕ) : RGB K :=
  ⟨(r : K) / 255, (g : K) / 255, (b : K) / 255⟩

/-- `THREE.MathUtils.lerp(x, y, t) = (1 - t) * x + t * y`. -/
def threeLerp {K : Type} [Field K] (x y t : K) : K := (1 - t) * x + t * y

/-- `THREE.Color.lerp(target, alpha)`: each channel moves by
`(target - current) * alpha`. -/
def colorLerp {K : Type} [Field K] (c target : RGB K) (alpha : K) : RGB K :=
  ⟨c.r + (target.r - c.r) * alpha, c.g + (target.g - c.g) * alpha,
    c.b + (target.b - c.b) * alpha⟩

/-- The four gesture-target refs of `ReactiveMesh` (`targetScale`,
`targetColor`, `targetRotationSpeed`, `targetRoughness`). -/
structure Targets (K : Type) where
  scale : K
  color : RGB K
  rotationSpeed : K
  roughness : K
deriving DecidableEq

/-- Initial ref contents: `useRef(1)`, `#ffffff`, `0.5`, `0.2`. -/
def initialTargets {K : Type} [Field K] : Targets K :=
  ⟨1, rgbOf 0xff 0xff 0xff, 1 / 2, 1 / 5⟩

/-- The gesture `useMemo` switch of `ReactiveMesh` (part_000 lines 484-527):
given the current gesture, the theme flag and the previous ref contents,
produce the new target refs. The `Thumb_Up` and `Thumb_Down` cases do not
write `targetRoughness`, and `Pointing_Down` has no case of its own, falling
through to `default`. -/
def applyGestureConfig {K : Type} [Field K] (g : Gesture) (isDarkMode : Bool)
    (t : Targets K) : Targets K :=
  match g with
  | Gesture.Open_Palm =>
    ⟨2, if isDarkMode then rgbOf 0x00 0xf0 0xff else rgbOf 0x00 0x66 0xff, 1 / 5, 1 / 20⟩
  | Gesture.Closed_Fist =>
    ⟨3 / 5, if isDarkMode then rgbOf 0xff 0x00 0x55 else rgbOf 0xcc 0x00 0x00, 0, 4 / 5⟩
  | Gesture.Pointing_Up =>
    ⟨6 / 5, if isDarkMode then rgbOf 0xcc 0x00 0xff else rgbOf 0x88 0x00 0xcc, 1, 1 / 5⟩
  | Gesture.Victory => ⟨3 / 2, rgbOf 0xff 0xd7 0x00, 3, 0⟩
  | Gesture.Thumb_Up => ⟨13 / 10, rgbOf 0x00 0xff 0x00, 1, t.roughness⟩
  | Gesture.Thumb_Down => ⟨4 / 5, rgbOf 0x55 0x55 0x55, 1 / 5, t.roughness⟩
  | _ => ⟨6 / 5, if isDarkMode then rgbOf 0xff 0xff 0xff else rgbOf 0x33 0x33 0x33, 1 / 2, 3 / 10⟩

/-- Vertical position target computed inside `useFrame`: `+2` for
`Pointing_Up`, `-2` for `Pointing_Down`, `0` otherwise. -/
def targetYOf {K : Type} [Field K] (g : Gesture) : K :=
  if g = Gesture.Pointing_Up then 2 else if g = Gesture.Pointing_Down then -2 else 0

/-- Mesh and material state mutated by `useFrame`: rotation, position, scale
components and the material color and roughness. -/
structure MeshState (K : Type) where
  rotX : K
  rotY : K
  posX : K
  posY : K
  scaleX : K
  scaleY : K
  scaleZ : K
  color : RGB K
  roughness : K
deriving DecidableEq

/-- Manipulation-accent highlight color `#ff8800`. -/
def highlightColor {K : Type} [Field K] : RGB K := rgbOf 0xff 0x88 0x00

/-- Whether `pinch && pinch.isPinching` holds. -/
def pinchActive {K : Type} (p : Option (Pinch K)) : Bool :=
  match p with
  | some s => s.isPinching
  | none => false

/-- One `useFrame` step of `ReactiveMesh` (part_000 lines 529-583), with the
rotation sensitivity `Math.PI * 3` abstracted as the parameter `sens`
(`rotationSensitivity` below is the exact constant). Inputs: current pinch
state, gesture, target refs, frame `delta`, the stored `lastPinchPosRef`
anchor and the mesh state; outputs: the new anchor and the new mesh state.
In the pinch branch `getD` recovers the pinch payload, which exists whenever
`pinchActive` holds. The roughness interpolation, written after the branch in
the source but guarded by `!pinch || !pinch.isPinching`, is folded into the
non-pinch branch, which has exactly that guard. -/
def frameStep {K : Type} [Field K] (sens : K) (pinch : Option (Pinch K))
    (gesture : Gesture) (t : Targets K) (delta : K) (anchor : Option (K × K))
    (m : MeshState K) : Option (K × K) × MeshState K :=
  if pinchActive pinch then
    let p := pinch.getD ⟨false, 0, 0⟩
    let pinchX := 1 / 2 - p.x
    let pinchY := p.y
    let rotated :=
      match anchor with
      | some a =>
        { m with
          rotY := m.rotY + (pinchX - a.1) * sens
          rotX := m.rotX + -(pinchY - a.2) * sens }
      | none => m
    let scaled := threeLerp rotated.scaleX (9 / 10) (delta * 10)
    (some (pinchX, pinchY),
      { rotated with
        posX := threeLerp rotated.posX 0 (delta * 15)
        posY := threeLerp rotated.posY 0 (delta * 15)
        scaleX := scaled
        scaleY := scaled
        scaleZ := scaled
        color := colorLerp rotated.color highlightColor (delta * 10) })
  else
    (none,
      { m with
        scaleX := threeLerp m.scaleX t.scale (delta * 3)
        scaleY := threeLerp m.scaleY t.scale (delta * 3)
        scaleZ := threeLerp m.scaleZ t.scale (delta * 3)
        posX := threeLerp m.posX 0 (delta * 2)
        posY := threeLerp m.posY (targetYOf gesture) (delta * 2)
        color := colorLerp m.color t.color (delta * 5)
        roughness := threeLerp m.roughness t.roughness (delta * 2) })

/-- The rotation sensitivity constant of the source, `Math.PI * 3`. -/
noncomputable def rotationSensitivity : ℝ := Real.pi * 3

/-- The shape-change `useEffect` of `ReactiveMesh` (part_000 lines 479-481):
any change of the `shape` prop clears `lastPinchPosRef`. -/
def shapeChangeReset {K : Type} (_anchor : Option (K × K)) : Option (K × K) := none

/-- An entry of the overlay gesture feed: `{ id: Date.now(), type }`. -/
structure HistoryEntry where
  id : ℕ
  type : Gesture
deriving DecidableEq

/-- The enqueue effect of `Overlay` (part_000 lines 20-35): ignore `None`,
keep the queue when the last entry has the same type, otherwise append a fresh
entry keeping only the last two old ones (`[...prev.slice(-2), newItem]`). -/
def enqueueGesture (g : Gesture) (now : ℕ) (q : List HistoryEntry) :
    List HistoryEntry :=
  if g = Gesture.None then q
  else
    match q.getLast? with
    | some lastItem =>
      if lastItem.type = g then q else q.drop (q.length - 2) ++ [⟨now, g⟩]
    | none => q.drop (q.length - 2) ++ [⟨now, g⟩]

/-- Repeated application of the code's smoothing step
`x ↦ THREE.MathUtils.lerp(x, target, alpha)` with a constant target and a
constant per-call interpolation factor `alpha = k * delta`. -/
def smoothIter {K : Type} [Field K] (target alpha start : K) : ℕ → K
  | 0 => start
  | n + 1 => threeLerp (smoothIter target alpha start n) target alpha

/-- One row of the §4.2 table of the spec: scale, dark- and light-theme
colors, rotation speed, and roughness with `none` for the spec's
"(unchanged)". Stated from the spec's words for comparison with
`applyGestureConfig`; the spec names the colors and the hex values are the
palette the code uses for those names. -/
structure SpecRow (K : Type) where
  scale : K
  colorDark : RGB K
  colorLight : RGB K
  rotationSpeed : K
  roughness : Option K
deriving DecidableEq

/-- The §4.2 table of the spec, row by row, together with the rule that theme
only selects between the dark and light color of a row. -/
def specTableRow {K : Type} [Field K] (g : Gesture) : SpecRow K :=
  match g with
  | Gesture.None =>
    ⟨6 / 5, rgbOf 0xff 0xff 0xff, rgbOf 0x33 0x33 0x33, 1 / 2, some (3 / 10)⟩
  | Gesture.Open_Palm =>
    ⟨2, rgbOf 0x00 0xf0 0xff, rgbOf 0x00 0x66 0xff, 1 / 5, some (1 / 20)⟩
  | Gesture.Closed_Fist =>
    ⟨3 / 5, rgbOf 0xff 0x00 0x55, rgbOf 0xcc 0x00 0x00, 0, some (4 / 5)⟩
  | Gesture.Pointing_Up =>
    ⟨6 / 5, rgbOf 0xcc 0x00 0xff, rgbOf 0x88 0x00 0xcc, 1, some (1 / 5)⟩
  | Gesture.Pointing_Down =>
    ⟨6 / 5, rgbOf 0xcc 0x00 0xff, rgbOf 0x88 0x00 0xcc, 1, some (1 / 5)⟩
  | Gesture.Victory => ⟨3 / 2, rgbOf 0xff 0xd7 0x00, rgbOf 0xff 0xd7 0x00, 3, some 0⟩
  | Gesture.Thumb_Up => ⟨13 / 10, rgbOf 0x00 0xff 0x00, rgbOf 0x00 0xff 0x00, 1, none⟩
  | Gesture.Thumb_Down => ⟨4 / 5, rgbOf 0x55 0x55 0x55, rgbOf 0x55 0x55 0x55, 1 / 5, none⟩

/-- Interpretation of a table row as a target update: theme selects the color,
and a `none` roughness keeps the previous target roughness. -/
def applySpecRow {K : Type} [Field K] (row : SpecRow K) (isDarkMode : Bool)
    (t : Targets K) : Targets K :=
  ⟨row.scale, if isDarkMode then row.colorDark else row.colorLight, row.rotationSpeed,
    row.roughness.getD t.roughness⟩

/-- The §4.2 table amended at the single row the code diverges from: the
source switch has no `Pointing_Down` case, so that gesture takes the default
(`None`) row. -/
def amendedTableRow {K : Type} [Field K] (g : Gesture) : SpecRow K :=
  if g = Gesture.Pointing_Down then specTableRow Gesture.None else specTableRow g

/-- Nine landmark points with thumb tip (index 4) at the origin and index tip
(index 8) on the x-axis at distance `d`. -/
def collinearHand (d : ℚ) : List Landmark :=
  [⟨0, 0, 0⟩, ⟨0, 0, 0⟩, ⟨0, 0, 0⟩, ⟨0, 0, 0⟩, ⟨0, 0, 0⟩, ⟨0, 0, 0⟩, ⟨0, 0, 0⟩,
    ⟨0, 0, 0⟩, ⟨d, 0, 0⟩]

/-- Raw frame whose only content is a hand with thumb-index distance 0.079. -/
def raw079 : RawResult := ⟨some [collinearHand (79 / 1000)], none, none⟩

/-- Raw frame whose only content is a hand with thumb-index distance 0.081. -/
def raw081 : RawResult := ⟨some [collinearHand (81 / 1000)], none, none⟩

/-- Mesh state at scene mount: zero rotation and position, unit scale, white
material color and roughness `0.2`. -/
def mesh0 : MeshState ℚ := ⟨0, 0, 0, 0, 1, 1, 1, rgbOf 0xff 0xff 0xff, 1 / 5⟩

/-- C1: the claim fails on the code. The gesture switch has no `Pointing_Down`
case, so that gesture falls through to the default row and the mapping does
not return the §4.2 `Pointing_Down` row (scale 1.2, purple, rotation speed
1.0, roughness 0.2): at the initial refs under the dark theme, the produced
rotation speed is 0.5 rather than the table's 1.0. -/
theorem mapGesture_pointing_down_departs_from_table :
    applyGestureConfig (K := ℚ) Gesture.Pointing_Down true initialTargets ≠
      applySpecRow (specTableRow Gesture.Pointing_Down) true initialTargets ∧
    (applyGestureConfig (K := ℚ) Gesture.Pointing_Down true initialTargets).rotationSpeed =
      1 / 2 ∧
    (applySpecRow (specTableRow (K := ℚ) Gesture.Pointing_Down) true
        initialTargets).rotationSpeed = 1 := by
  refine ⟨?_, rfl, rfl⟩
  intro h
  have h' := congrArg Targets.rotationSpeed h
  norm_num [applyGestureConfig, applySpecRow, specTableRow, initialTargets] at h'

/-- C1 (amended): for every gesture, theme and previous target refs, the
gesture switch produces exactly the amended §4.2 table row, where every row
agrees with the spec's table except `Pointing_Down`, which takes the default
(`None`) row, and the "(unchanged)" roughness rows keep the previous target
roughness. -/
theorem mapGesture_matches_amended_table {K : Type} [Field K] (g : Gesture)
    (isDarkMode : Bool) (t : Targets K) :
    applyGestureConfig g isDarkMode t = applySpecRow (amendedTableRow g) isDarkMode t := by
  cases g <;> cases isDarkMode <;> rfl

/-- C7: the claim fails on the code: the roughness target is hidden state.
After a `Victory` frame a `Thumb_Up` frame leaves roughness 0, after a
`Closed_Fist` frame it leaves 0.8, so two runs with the same
`(gesture, theme)` input disagree on a produced field depending on previously
processed gestures. -/
theorem mapGesture_roughness_hidden_state :
    applyGestureConfig (K := ℚ) Gesture.Thumb_Up true
        (applyGestureConfig Gesture.Victory true initialTargets) ≠
      applyGestureConfig (K := ℚ) Gesture.Thumb_Up true
        (applyGestureConfig Gesture.Closed_Fist true initialTargets) := by
  intro h
  have h' := congrArg Targets.roughness h
  norm_num [applyGestureConfig, initialTargets] at h'

/-- C7 (amended): the produced scale, color and rotation speed depend only on
`(gesture, theme)`, and so does roughness for every gesture other than
`Thumb_Up` and `Thumb_Down`, which retain the previously stored roughness
target (the vertical offset `targetYOf` is a function of the gesture alone by
definition). -/
theorem mapGesture_pure_except_thumb_roughness {K : Type} [Field K] (g : Gesture)
    (isDarkMode : Bool) (t₁ t₂ : Targets K) :
    (applyGestureConfig g isDarkMode t₁).scale = (applyGestureConfig g isDarkMode t₂).scale ∧
    (applyGestureConfig g isDarkMode t₁).color = (applyGestureConfig g isDarkMode t₂).color ∧
    (applyGestureConfig g isDarkMode t₁).rotationSpeed =
      (applyGestureConfig g isDarkMode t₂).rotationSpeed ∧
    (g ≠ Gesture.Thumb_Up → g ≠ Gesture.Thumb_Down →
      (applyGestureConfig g isDarkMode t₁).roughness =
        (applyGestureConfig g isDarkMode t₂).roughness) := by
  cases g <;> simp [applyGestureConfig]

/-- Witness for C7 (amended) at `Open_Palm`, dark theme and two distinct
previous target states. -/
theorem mapGesture_pure_except_thumb_roughness_witness :
    (applyGestureConfig (K := ℚ) Gesture.Open_Palm true initialTargets).roughness =
      (applyGestureConfig (K := ℚ) Gesture.Open_Palm true
          (applyGestureConfig Gesture.Closed_Fist true initialTargets)).roughness :=
  (mapGesture_pure_except_thumb_roughness Gesture.Open_Palm true initialTargets
      (applyGestureConfig Gesture.Closed_Fist true initialTargets)).2.2.2
    (by decide) (by decide)

/-- C8: the gesture history queue update: a gesture equal to the last entry's
type leaves the queue unchanged; a distinct non-`None` gesture arriving at a
full queue of three appends it at the tail and drops exactly the oldest entry;
the queue never grows beyond three entries; and a repeated feed of the same
non-`None` gesture collapses to a single enqueue. -/
theorem gesture_queue_invariants (g : Gesture) (t t' : ℕ) (q : List HistoryEntry)
    (e : HistoryEntry) :
    (g ≠ Gesture.None → q.getLast? = some e → e.type = g →
      enqueueGesture g t q = q) ∧
    (g ≠ Gesture.None → q.length = 3 → q.getLast? = some e → e.type ≠ g →
      enqueueGesture g t q = q.tail ++ [⟨t, g⟩]) ∧
    (q.length ≤ 3 → (enqueueGesture g t q).length ≤ 3) ∧
    (g ≠ Gesture.None →
      enqueueGesture g t' (enqueueGesture g t q) = enqueueGesture g t q) := by
  refine ⟨?_, ?_, ?_, ?_⟩
  · intro hg hlast htype
    simp [enqueueGesture, hg, hlast, htype]
  · intro hg hlen hlast htype
    have hdrop : q.drop (q.length - 2) = q.tail := by
      rw [hlen]
      exact List.drop_one q
    simp [enqueueGesture, hg, hlast, htype, hdrop]
  · intro hlen
    by_cases hg : g = Gesture.None
    · simpa [enqueueGesture, hg] using hlen
    · rcases hlast : q.getLast? with _ | e₀
      · have : (q.drop (q.length - 2) ++ [(⟨t, g⟩ : HistoryEntry)]).length ≤ 3 := by
          simp [List.length_drop]
          omega
        simpa [enqueueGesture, hg, hlast] using this
      · by_cases htype : e₀.type = g
        · simpa [enqueueGesture, hg, hlast, htype] using hlen
        · have : (q.drop (q.length - 2) ++ [(⟨t, g⟩ : HistoryEntry)]).length ≤ 3 := by
            simp [List.length_drop]
            omega
          simpa [enqueueGesture, hg, hlast, htype] using this
  · intro hg
    rcases hlast : q.getLast? with _ | e₀
    · have hnew : (q.drop (q.length - 2) ++ [(⟨t, g⟩ : HistoryEntry)]).getLast? =
          some ⟨t, g⟩ := List.getLast?_concat _
      simp [enqueueGesture, hg, hlast, hnew]
    · by_cases htype : e₀.type = g
      · simp [enqueueGesture, hg, hlast, htype]
      · have hnew : (q.drop (q.length - 2) ++ [(⟨t, g⟩ : HistoryEntry)]).getLast? =
            some ⟨t, g⟩ := List.getLast?_concat _
        simp [enqueueGesture, hg, hlast, htype, hnew]

/-- Witness for C8 on a full queue `[Victory, Closed_Fist, Victory]` fed an
`Open_Palm` entry and then the same gesture again. -/
theorem gesture_queue_invariants_witness :
    enqueueGesture Gesture.Open_Palm 4
        [⟨1, Gesture.Victory⟩, ⟨2, Gesture.Closed_Fist⟩, ⟨3, Gesture.Victory⟩] =
      [⟨1, Gesture.Victory⟩, ⟨2, Gesture.Closed_Fist⟩, ⟨3, Gesture.Victory⟩].tail ++
        [⟨4, Gesture.Open_Palm⟩] ∧
    enqueueGesture Gesture.Open_Palm 5
        (enqueueGesture Gesture.Open_Palm 4
          [⟨1, Gesture.Victory⟩, ⟨2, Gesture.Closed_Fist⟩, ⟨3, Gesture.Victory⟩]) =
      enqueueGesture Gesture.Open_Palm 4
        [⟨1, Gesture.Victory⟩, ⟨2, Gesture.Closed_Fist⟩, ⟨3, Gesture.Victory⟩] :=
  ⟨(gesture_queue_invariants Gesture.Open_Palm 4 5
        [⟨1, Gesture.Victory⟩, ⟨2, Gesture.Closed_Fist⟩, ⟨3, Gesture.Victory⟩]
        ⟨3, Gesture.Victory⟩).2.1 (by decide) (by decide) (by decide) (by decide),
    (gesture_queue_invariants Gesture.Open_Palm 4 5
        [⟨1, Gesture.Victory⟩, ⟨2, Gesture.Closed_Fist⟩, ⟨3, Gesture.Victory⟩]
        ⟨3, Gesture.Victory⟩).2.2.2 (by decide)⟩

/-- C3: the stored anchor is `none` after every frame on which pinch is not
active (so it is `none` whenever pinch was inactive on the current and the
previous frame), a shape change clears it unconditionally, and a step from an
empty anchor leaves the rotation unchanged whether or not pinch is active —
so the first frame of a new pinch session, and the first frame after a shape
change even under a continuing pinch, produce zero rotation delta. -/
theorem pinch_anchor_reset_invariant {K : Type} [Field K] (sens : K)
    (p q : Option (Pinch K)) (g : Gesture) (t : Targets K) (delta : K)
    (a : Option (K × K)) (m : MeshState K) :
    (pinchActive p = false → (frameStep sens p g t delta a m).1 = none) ∧
    shapeChangeReset a = none ∧
    (frameStep sens q g t delta none m).2.rotX = m.rotX ∧
    (frameStep sens q g t delta none m).2.rotY = m.rotY := by
  refine ⟨?_, rfl, ?_⟩
  · intro hp
    simp [frameStep, hp]
  · cases hq : pinchActive q <;> simp [frameStep, hq]

/-- Witness for C3 with a non-pinching frame, a shape change, and a pinching
frame processed from an empty anchor. -/
theorem pinch_anchor_reset_invariant_witness :
    (frameStep (10 : ℚ) none Gesture.None initialTargets (1 / 60) (some (1, 1))
        mesh0).1 = none ∧
    shapeChangeReset (K := ℚ) (some (1, 1)) = none ∧
    (frameStep (10 : ℚ) (some ⟨true, 1 / 4, 1 / 3⟩) Gesture.None initialTargets (1 / 60)
        none mesh0).2.rotX = mesh0.rotX ∧
    (frameStep (10 : ℚ) (some ⟨true, 1 / 4, 1 / 3⟩) Gesture.None initialTargets (1 / 60)
        none mesh0).2.rotY = mesh0.rotY :=
  ⟨(pinch_anchor_reset_invariant 10 none (some ⟨true, 1 / 4, 1 / 3⟩) Gesture.None
      initialTargets (1 / 60) (some (1, 1)) mesh0).1 rfl,
    (pinch_anchor_reset_invariant 10 none (some ⟨true, 1 / 4, 1 / 3⟩) Gesture.None
      initialTargets (1 / 60) (some (1, 1)) mesh0).2⟩

/-- C4: while a pinch continues across consecutive frames (pinch active with a
stored anchor), the step adds to rotation exactly the displacement of the
mirrored pinch point (`pinchX = 1/2 - x`, the front-facing camera convention)
scaled by the constant `π * 3`: yaw `rotY` gains `dx * 3π` and pitch `rotX`
gains `-dy * 3π`, directly with no smoothing, and the new anchor is the
current mirrored pinch point. -/
theorem pinch_rotation_increment_formula (p : Pinch ℝ) (g : Gesture) (t : Targets ℝ)
    (delta : ℝ) (a : ℝ × ℝ) (m : MeshState ℝ) (hp : p.isPinching = true) :
    (frameStep rotationSensitivity (some p) g t delta (some a) m).2.rotY =
      m.rotY + (1 / 2 - p.x - a.1) * (Real.pi * 3) ∧
    (frameStep rotationSensitivity (some p) g t delta (some a) m).2.rotX =
      m.rotX + -(p.y - a.2) * (Real.pi * 3) ∧
    (frameStep rotationSensitivity (some p) g t delta (some a) m).1 =
      some (1 / 2 - p.x, p.y) := by
  refine ⟨?_, ?_, ?_⟩ <;> simp [frameStep, pinchActive, hp, rotationSensitivity]

/-- Witness for C4: a pinch at `(1/4, 1/3)` continuing from the anchor
`(0, 0)` on the mount-state mesh. -/
theorem pinch_rotation_increment_formula_witness :
    (frameStep rotationSensitivity (some ⟨true, 1 / 4, 1 / 3⟩) Gesture.None initialTargets
        (1 / 60) (some (0, 0))
        (⟨0, 0, 0, 0, 1, 1, 1, rgbOf 0xff 0xff 0xff, 1 / 5⟩ : MeshState ℝ)).2.rotY =
      0 + (1 / 2 - 1 / 4 - 0) * (Real.pi * 3) ∧
    (frameStep rotationSensitivity (some ⟨true, 1 / 4, 1 / 3⟩) Gesture.None initialTargets
        (1 / 60) (some (0, 0))
        (⟨0, 0, 0, 0, 1, 1, 1, rgbOf 0xff 0xff 0xff, 1 / 5⟩ : MeshState ℝ)).2.rotX =
      0 + -(1 / 3 - 0) * (Real.pi * 3) ∧
    (frameStep rotationSensitivity (some ⟨true, 1 / 4, 1 / 3⟩) Gesture.None initialTargets
        (1 / 60) (some (0, 0))
        (⟨0, 0, 0, 0, 1, 1, 1, rgbOf 0xff 0xff 0xff, 1 / 5⟩ : MeshState ℝ)).1 =
      some (1 / 2 - 1 / 4, 1 / 3) :=
  pinch_rotation_increment_formula ⟨true, 1 / 4, 1 / 3⟩ Gesture.None initialTargets
    (1 / 60) (0, 0) ⟨0, 0, 0, 0, 1, 1, 1, rgbOf 0xff 0xff 0xff, 1 / 5⟩ rfl

/-- C5: the interpolation targets and rate constants of the smoothing driver.
With pinch active: position x and y toward the origin at rate 15, every scale
component toward 0.9 at rate 10 (all set from the x component), color toward
the manipulation-accent highlight at rate 10, roughness untouched. Without
pinch: each scale component toward the gesture target at rate 3, position x
toward 0 and position y toward the gesture's vertical offset at rate 2, color
toward the gesture target at rate 5, roughness toward the gesture target at
rate 2. -/
theorem smoothing_step_rate_constants {K : Type} [Field K] (sens : K)
    (p : Option (Pinch K)) (g : Gesture) (t : Targets K) (delta : K)
    (a : Option (K × K)) (m : MeshState K) :
    (pinchActive p = true →
      (frameStep sens p g t delta a m).2.posX = threeLerp m.posX 0 (delta * 15) ∧
      (frameStep sens p g t delta a m).2.posY = threeLerp m.posY 0 (delta * 15) ∧
      (frameStep sens p g t delta a m).2.scaleX = threeLerp m.scaleX (9 / 10) (delta * 10) ∧
      (frameStep sens p g t delta a m).2.scaleY = threeLerp m.scaleX (9 / 10) (delta * 10) ∧
      (frameStep sens p g t delta a m).2.scaleZ = threeLerp m.scaleX (9 / 10) (delta * 10) ∧
      (frameStep sens p g t delta a m).2.color =
        colorLerp m.color highlightColor (delta * 10) ∧
      (frameStep sens p g t delta a m).2.roughness = m.roughness) ∧
    (pinchActive p = false →
      (frameStep sens p g t delta a m).2.scaleX = threeLerp m.scaleX t.scale (delta * 3) ∧
      (frameStep sens p g t delta a m).2.scaleY = threeLerp m.scaleY t.scale (delta * 3) ∧
      (frameStep sens p g t delta a m).2.scaleZ = threeLerp m.scaleZ t.scale (delta * 3) ∧
      (frameStep sens p g t delta a m).2.posX = threeLerp m.posX 0 (delta * 2) ∧
      (frameStep sens p g t delta a m).2.posY =
        threeLerp m.posY (targetYOf g) (delta * 2) ∧
      (frameStep sens p g t delta a m).2.color = colorLerp m.color t.color (delta * 5) ∧
      (frameStep sens p g t delta a m).2.roughness =
        threeLerp m.roughness t.roughness (delta * 2)) := by
  constructor
  · intro hp
    rcases a with _ | a₀ <;> simp [frameStep, hp]
  · intro hp
    simp [frameStep, hp]

/-- Witness for C5 with a pinching frame and a non-pinching frame on the
mount-state mesh. -/
theorem smoothing_step_rate_constants_witness :
    ((frameStep (10 : ℚ) (some ⟨true, 1 / 4, 1 / 3⟩) Gesture.None initialTargets (1 / 60)
        none mesh0).2.posX = threeLerp mesh0.posX 0 (1 / 60 * 15) ∧
      (frameStep (10 : ℚ) (some ⟨true, 1 / 4, 1 / 3⟩) Gesture.None initialTargets (1 / 60)
        none mesh0).2.posY = threeLerp mesh0.posY 0 (1 / 60 * 15) ∧
      (frameStep (10 : ℚ) (some ⟨true, 1 / 4, 1 / 3⟩) Gesture.None initialTargets (1 / 60)
        none mesh0).2.scaleX = threeLerp mesh0.scaleX (9 / 10) (1 / 60 * 10) ∧
      (frameStep (10 : ℚ) (some ⟨true, 1 / 4, 1 / 3⟩) Gesture.None initialTargets (1 / 60)
        none mesh0).2.scaleY = threeLerp mesh0.scaleX (9 / 10) (1 / 60 * 10) ∧
      (frameStep (10 : ℚ) (some ⟨true, 1 / 4, 1 / 3⟩) Gesture.None initialTargets (1 / 60)
        none mesh0).2.scaleZ = threeLerp mesh0.scaleX (9 / 10) (1 / 60 * 10) ∧
      (frameStep (10 : ℚ) (some ⟨true, 1 / 4, 1 / 3⟩) Gesture.None initialTargets (1 / 60)
        none mesh0).2.color = colorLerp mesh0.color highlightColor (1 / 60 * 10) ∧
      (frameStep (10 : ℚ) (some ⟨true, 1 / 4, 1 / 3⟩) Gesture.None initialTargets (1 / 60)
        none mesh0).2.roughness = mesh0.roughness) ∧
    ((frameStep (10 : ℚ) none Gesture.Pointing_Up initialTargets (1 / 60) none
        mesh0).2.scaleX = threeLerp mesh0.scaleX initialTargets.scale (1 / 60 * 3) ∧
      (frameStep (10 : ℚ) none Gesture.Pointing_Up initialTargets (1 / 60) none
        mesh0).2.scaleY = threeLerp mesh0.scaleY initialTargets.scale (1 / 60 * 3) ∧
      (frameStep (10 : ℚ) none Gesture.Pointing_Up initialTargets (1 / 60) none
        mesh0).2.scaleZ = threeLerp mesh0.scaleZ initialTargets.scale (1 / 60 * 3) ∧
      (frameStep (10 : ℚ) none Gesture.Pointing_Up initialTargets (1 / 60) none
        mesh0).2.posX = threeLerp mesh0.posX 0 (1 / 60 * 2) ∧
      (frameStep (10 : ℚ) none Gesture.Pointing_Up initialTargets (1 / 60) none
        mesh0).2.posY =
        threeLerp mesh0.posY (targetYOf Gesture.Pointing_Up) (1 / 60 * 2) ∧
      (frameStep (10 : ℚ) none Gesture.Pointing_Up initialTargets (1 / 60) none
        mesh0).2.color = colorLerp mesh0.color initialTargets.color (1 / 60 * 5) ∧
      (frameStep (10 : ℚ) none Gesture.Pointing_Up initialTargets (1 / 60) none
        mesh0).2.roughness =
        threeLerp mesh0.roughness initialTargets.roughness (1 / 60 * 2)) :=
  ⟨(smoothing_step_rate_constants 10 (some ⟨true, 1 / 4, 1 / 3⟩) Gesture.None
      initialTargets (1 / 60) none mesh0).1 rfl,
    (smoothing_step_rate_constants 10 none Gesture.Pointing_Up initialTargets (1 / 60)
      none mesh0).2 rfl⟩

/-- C10: outside pinch manipulation the step never modifies rotation (so
rotation accumulated during a pinch session is retained unchanged after the
pinch ends), and the `rotationSpeed` target computed by the gesture mapping is
never applied in any mode: the step result is invariant under replacing it. -/
theorem rotation_untouched_outside_pinch {K : Type} [Field K] (sens : K)
    (p : Option (Pinch K)) (g : Gesture) (t : Targets K) (r : K) (delta : K)
    (a : Option (K × K)) (m : MeshState K) :
    (pinchActive p = false →
      (frameStep sens p g t delta a m).2.rotX = m.rotX ∧
      (frameStep sens p g t delta a m).2.rotY = m.rotY) ∧
    frameStep sens p g { t with rotationSpeed := r } delta a m =
      frameStep sens p g t delta a m := by
  constructor
  · intro hp
    simp [frameStep, hp]
  · cases hp : pinchActive p <;> simp [frameStep, hp]

/-- Witness for C10 with a non-pinching frame and a replaced rotation speed
target. -/
theorem rotation_untouched_outside_pinch_witness :
    ((frameStep (10 : ℚ) none Gesture.None initialTargets (1 / 60) none mesh0).2.rotX =
        mesh0.rotX ∧
      (frameStep (10 : ℚ) none Gesture.None initialTargets (1 / 60) none mesh0).2.rotY =
        mesh0.rotY) ∧
    frameStep (10 : ℚ) none Gesture.None { initialTargets with rotationSpeed := 7 }
        (1 / 60) none mesh0 =
      frameStep (10 : ℚ) none Gesture.None initialTargets (1 / 60) none mesh0 :=
  ⟨(rotation_untouched_outside_pinch 10 none Gesture.None initialTargets 7 (1 / 60) none
      mesh0).1 rfl,
    (rotation_untouched_outside_pinch 10 none Gesture.None initialTargets 7 (1 / 60) none
      mesh0).2⟩

/-- Bridge between the source's comparison `Math.sqrt(dsq) < 0.08` and the
model's squared comparison: for the nonnegative radicand the two agree. -/
lemma sqrt_lt_pinch_threshold (q : ℚ) :
    Real.sqrt (q : ℝ) < 8 / 100 ↔ q < (8 / 100) ^ 2 := by
  rw [Real.sqrt_lt' (by norm_num)]
  rw [show ((8 : ℝ) / 100) ^ 2 = ((((8 : ℚ) / 100) ^ 2 : ℚ) : ℝ) by norm_num]
  exact Rat.cast_lt

/-- C2: for every frame the adapter emits, `isPinching` holds iff the
Euclidean distance between landmarks 4 and 8 of the first tracked hand is
below 0.08 (stated through `Real.sqrt` of the squared distance, matching the
source's `Math.sqrt(...) < 0.08`); a hand at distance exactly 0.079 pinches
and one at 0.081 does not; and with zero tracked hands `isPinching` is false. -/
theorem pinch_detection_threshold_iff :
    (∀ raw f, ingest raw = some f →
      (f.pinchState.isPinching = true ↔
        ∃ hand rest, raw.landmarks.getD [] = hand :: rest ∧
          Real.sqrt ((pinchDistSq hand : ℚ) : ℝ) < 8 / 100)) ∧
    (ingest raw079).map (fun f => f.pinchState.isPinching) = some true ∧
    (ingest raw081).map (fun f => f.pinchState.isPinching) = some false ∧
    (∀ raw f, ingest raw = some f → raw.landmarks.getD [] = [] →
      f.pinchState.isPinching = false) := by
  have main : ∀ raw f, ingest raw = some f →
      (f.pinchState.isPinching = true ↔
        ∃ hand rest, raw.landmarks.getD [] = hand :: rest ∧
          Real.sqrt ((pinchDistSq hand : ℚ) : ℝ) < 8 / 100) := by
    intro raw f hf
    rcases hg : gestureOf raw with _ | gi
    · simp [ingest, hg] at hf
    · rcases hl : raw.landmarks.getD [] with _ | ⟨hand, rest⟩
      · simp [ingest, hg, hl, pinchOf] at hf
        subst hf
        simp [hl]
      · rcases h4 : hand[4]? with _ | thumb <;> rcases h8 : hand[8]? with _ | idx <;>
          simp [ingest, hg, hl, pinchOf, h4, h8] at hf
        subst hf
        have hds : pinchDistSq hand = (thumb.x - idx.x) ^ 2 + (thumb.y - idx.y) ^ 2 := by
          simp [pinchDistSq, h4, h8]
        by_cases hc : (thumb.x - idx.x) ^ 2 + (thumb.y - idx.y) ^ 2 < (8 / 100) ^ 2
        · simp only [if_pos hc]
          constructor
          · intro _
            exact ⟨hand, rest, rfl, by rw [hds, sqrt_lt_pinch_threshold]; exact hc⟩
          · intro _
            trivial
        · simp only [if_neg hc]
          constructor
          · intro hpin
            exact absurd hpin (by simp)
          · rintro ⟨hand₁, rest₁, heq, hsq⟩
            obtain ⟨h₁, h₂⟩ := List.cons.inj heq
            subst h₁
            rw [hds, sqrt_lt_pinch_threshold] at hsq
            exact absurd hsq hc
  refine ⟨main, ?_, ?_, ?_⟩
  · norm_num [ingest, gestureOf, pinchOf, raw079, collinearHand]
  · norm_num [ingest, gestureOf, pinchOf, raw081, collinearHand]
  · intro raw f hf hl
    rcases hg : gestureOf raw with _ | gi
    · simp [ingest, hg] at hf
    · simp [ingest, hg, hl, pinchOf] at hf
      subst hf
      rfl

/-- Witness for C2: the iff instantiated at the 0.079 frame, and the
no-hands frame yielding a non-pinching state. -/
theorem pinch_detection_threshold_iff_witness :
    ((⟨[collinearHand (79 / 1000)], Gesture.None, 0, Handedness.Unknown,
        ⟨true, 79 / 2000, 0⟩⟩ : DetectionResult).pinchState.isPinching = true ↔
      ∃ hand rest, raw079.landmarks.getD [] = hand :: rest ∧
        Real.sqrt ((pinchDistSq hand : ℚ) : ℝ) < 8 / 100) ∧
    (⟨[], Gesture.None, 0, Handedness.Unknown,
        ⟨false, 0, 0⟩⟩ : DetectionResult).pinchState.isPinching = false :=
  ⟨pinch_detection_threshold_iff.1 raw079 _
      (by norm_num [ingest, gestureOf, pinchOf, raw079, collinearHand]),
    pinch_detection_threshold_iff.2.2.2 ⟨none, none, none⟩ _ (by decide) (by decide)⟩

/-- C9: the claim fails on the code: a raw frame with a missing landmark array
but a present gesture classification still produces a frame whose gesture is
the classified one (here `Open_Palm` with confidence 0.9), not the "no hand"
frame with gesture `None` and confidence 0 that the claim requires. -/
theorem ingest_missing_landmarks_keeps_gesture :
    (ingest ⟨none, some [[⟨Gesture.Open_Palm, 9 / 10⟩]], none⟩).map (fun f => f.gesture) =
      some Gesture.Open_Palm ∧
    Gesture.Open_Palm ≠ Gesture.None := by
  exact ⟨by decide, by decide⟩

/-- C9 (amended): the adapter never fails and degrades per field: a missing or
empty landmark array yields the empty pinch state (while gesture and
confidence still come from the gesture field), a first hand missing landmark
4 or 8 makes the adapter produce no frame at all for that cycle (the caught
exception; the loop continues), and the fully empty raw result yields the
full "no hand" frame. -/
theorem ingest_malformed_degrades :
    (∀ raw f, ingest raw = some f →
      raw.landmarks = none ∨ raw.landmarks = some [] →
      f.pinchState = ⟨false, 0, 0⟩) ∧
    (∀ raw hand rest, raw.landmarks.getD [] = hand :: rest → hand.length ≤ 8 →
      ingest raw = none) ∧
    ingest ⟨none, none, none⟩ =
      some ⟨[], Gesture.None, 0, Handedness.Unknown, ⟨false, 0, 0⟩⟩ := by
  refine ⟨?_, ?_, by decide⟩
  · intro raw f hf hland
    have hl : raw.landmarks.getD [] = [] := by
      rcases hland with h | h <;> simp [h]
    rcases hg : gestureOf raw with _ | gi
    · simp [ingest, hg] at hf
    · simp [ingest, hg, hl, pinchOf] at hf
      subst hf
      rfl
  · intro raw hand rest hl hshort
    have h8 : hand[8]? = none := List.getElem?_eq_none hshort
    rcases hg : gestureOf raw with _ | gi
    · simp [ingest, hg]
    · rcases h4 : hand[4]? with _ | thumb <;>
        simp [ingest, hg, hl, pinchOf, h4, h8]

/-- Witness for C9 (amended): the missing-landmark frame keeps the empty pinch
state, and a one-point hand produces no frame. -/
theorem ingest_malformed_degrades_witness :
    (⟨[], Gesture.Open_Palm, 9 / 10, Handedness.Unknown,
        ⟨false, 0, 0⟩⟩ : DetectionResult).pinchState = ⟨false, 0, 0⟩ ∧
    ingest ⟨some [[⟨0, 0, 0⟩]], none, none⟩ = none :=
  ⟨ingest_malformed_degrades.1 ⟨none, some [[⟨Gesture.Open_Palm, 9 / 10⟩]], none⟩ _
      (by norm_num [ingest, gestureOf, pinchOf]) (Or.inl rfl),
    ingest_malformed_degrades.2.1 ⟨some [[⟨0, 0, 0⟩]], none, none⟩ [⟨0, 0, 0⟩] []
      (by decide) (by decide)⟩

/-- Distance-to-target recurrence for the iterated lerp step: the gap to the
target contracts by the factor `1 - alpha` each call. -/
lemma smoothIter_target_sub {K : Type} [Field K] (target alpha start : K) (n : ℕ) :
    target - smoothIter target alpha start n = (1 - alpha) ^ n * (target - start) := by
  induction n with
  | zero => simp [smoothIter]
  | succ n ih =>
    have hstep : target - smoothIter target alpha start (n + 1) =
        (1 - alpha) * (target - smoothIter target alpha start n) := by
      simp only [smoothIter, threeLerp]
      ring
    rw [hstep, ih, pow_succ]
    ring

/-- C6: with a constant target and a constant per-call factor `0 < k*delta < 1`,
the iterated smoothing step has a distance to the target that never increases,
moves monotonically toward the target from either side without ever
overshooting it, and falls below any positive bound from some index on. -/
theorem lerp_iteration_monotone_no_overshoot_converges {K : Type}
    [LinearOrderedField K] [Archimedean K] (k delta start target : K)
    (h0 : 0 < k * delta) (h1 : k * delta < 1) :
    (∀ n, |target - smoothIter target (k * delta) start (n + 1)| ≤
      |target - smoothIter target (k * delta) start n|) ∧
    (start ≤ target → ∀ n,
      smoothIter target (k * delta) start n ≤
        smoothIter target (k * delta) start (n + 1) ∧
      smoothIter target (k * delta) start n ≤ target) ∧
    (target ≤ start → ∀ n,
      smoothIter target (k * delta) start (n + 1) ≤
        smoothIter target (k * delta) start n ∧
      target ≤ smoothIter target (k * delta) start n) ∧
    (∀ ε : K, 0 < ε → ∃ N, ∀ n, N ≤ n →
      |target - smoothIter target (k * delta) start n| < ε) := by
  set α := k * delta with hα
  have h1' : 0 ≤ 1 - α := by linarith
  have key : ∀ n, target - smoothIter target α start n =
      (1 - α) ^ n * (target - start) := smoothIter_target_sub target α start
  have hstep : ∀ n, target - smoothIter target α start (n + 1) =
      (1 - α) * (target - smoothIter target α start n) := by
    intro n
    rw [key (n + 1), key n, pow_succ]
    ring
  have hdiff : ∀ n, smoothIter target α start (n + 1) - smoothIter target α start n =
      α * (target - smoothIter target α start n) := by
    intro n
    have := hstep n
    linarith [this]
  refine ⟨?_, ?_, ?_, ?_⟩
  · intro n
    rw [hstep n, abs_mul, abs_of_nonneg h1']
    exact mul_le_of_le_one_left (abs_nonneg _) (by linarith)
  · intro hs n
    have hub : ∀ m, smoothIter target α start m ≤ target := by
      intro m
      have hpos : 0 ≤ (1 - α) ^ m * (target - start) :=
        mul_nonneg (pow_nonneg h1' m) (sub_nonneg.mpr hs)
      linarith [key m]
    have hd : 0 ≤ α * (target - smoothIter target α start n) :=
      mul_nonneg h0.le (sub_nonneg.mpr (hub n))
    exact ⟨by linarith [hdiff n], hub n⟩
  · intro hs n
    have hlb : ∀ m, target ≤ smoothIter target α start m := by
      intro m
      have hneg : (1 - α) ^ m * (target - start) ≤ 0 :=
        mul_nonpos_of_nonneg_of_nonpos (pow_nonneg h1' m) (sub_nonpos.mpr hs)
      linarith [key m]
    have hd : α * (target - smoothIter target α start n) ≤ 0 :=
      mul_nonpos_of_nonneg_of_nonpos h0.le (sub_nonpos.mpr (hlb n))
    exact ⟨by linarith [hdiff n], hlb n⟩
  · intro ε hε
    rcases eq_or_ne start target with heq | hne
    · refine ⟨0, fun n _ => ?_⟩
      have hzero : target - smoothIter target α start n = 0 := by
        rw [key n, heq]
        ring
      rw [hzero]
      simpa using hε
    · have hC : 0 < |target - start| := abs_pos.mpr (sub_ne_zero.mpr (Ne.symm hne))
      obtain ⟨N, hN⟩ := exists_pow_lt_of_lt_one (div_pos hε hC) (by linarith : 1 - α < 1)
      refine ⟨N, fun n hn => ?_⟩
      have habs : |target - smoothIter target α start n| =
          (1 - α) ^ n * |target - start| := by
        rw [key n, abs_mul, abs_pow, abs_of_nonneg h1']
      rw [habs]
      calc (1 - α) ^ n * |target - start| ≤ (1 - α) ^ N * |target - start| :=
            mul_le_mul_of_nonneg_right (pow_le_pow_of_le_one h1' (by linarith) hn) hC.le
        _ < ε := (lt_div_iff₀ hC).mp hN

/-- Witness for C6 at `k = 3`, `delta = 1/10`, start 0, target 1 over the
rationals. -/
theorem lerp_iteration_witness :
    (∀ n, |1 - smoothIter 1 ((3 : ℚ) * (1 / 10)) 0 (n + 1)| ≤
      |1 - smoothIter 1 ((3 : ℚ) * (1 / 10)) 0 n|) ∧
    ((0 : ℚ) ≤ 1 → ∀ n,
      smoothIter 1 ((3 : ℚ) * (1 / 10)) 0 n ≤
        smoothIter 1 ((3 : ℚ) * (1 / 10)) 0 (n + 1) ∧
      smoothIter 1 ((3 : ℚ) * (1 / 10)) 0 n ≤ 1) ∧
    ((1 : ℚ) ≤ 0 → ∀ n,
      smoothIter 1 ((3 : ℚ) * (1 / 10)) 0 (n + 1) ≤
        smoothIter 1 ((3 : ℚ) * (1 / 10)) 0 n ∧
      (1 : ℚ) ≤ smoothIter 1 ((3 : ℚ) * (1 / 10)) 0 n) ∧
    (∀ ε : ℚ, 0 < ε → ∃ N, ∀ n, N ≤ n →
      |1 - smoothIter 1 ((3 : ℚ) * (1 / 10)) 0 n| < ε) :=
  lerp_iteration_monotone_no_overshoot_converges 3 (1 / 10) 0 1 (by norm_num)
    (by norm_num)

end GestureCraft
